import Mathlib

/-!
Shallow embedding of the interaction logic of `@hanakla/react-lightbox`
(`src/pkgs/lightbox/src/index.tsx`).

Pixel-valued quantities (drag movements, widths, scales, opacities) are
modelled over `ℚ`; indices over `Int` (JS numbers used as integers);
`null` becomes `Option`.  Side-effecting callbacks (`onLoadNext`,
`onVisibilityChange`, `onRequestClose`, `onZoomChange`, `setCurrentIndex`)
are modelled as explicit event traces emitted by the handler functions,
in the order the code invokes them.
-/

namespace Lightbox

/-- Argument accepted by `setIndex` (a React `SetStateAction`): either a
direct value (`number | null`) or an updater function `prev => next`. -/
inductive SetIndexInput where
  | value (v : Option Int)
  | updater (f : Option Int → Option Int)

/-- The `typeof index === "function"` dispatch at the top of `setIndex`
(index.tsx lines 584-591): resolve the input against the previous state. -/
def resolveNext (prev : Option Int) : SetIndexInput → Option Int
  | .value v => v
  | .updater f => f prev

/-- The value stored by `setIndex` (index.tsx lines 582-598):
`return next ? Math.max(0, Math.min(next, items.current.length - 1)) : next`.
JS truthiness: `null` and `0` are falsy and are returned unclamped;
any other integer is clamped against `items.current.length - 1`. -/
def setIndexStore (len : Nat) (prev : Option Int) (input : SetIndexInput) : Option Int :=
  match resolveNext prev input with
  | none => none
  | some n => if n = 0 then some 0 else some (max 0 (min n ((len : Int) - 1)))

/-- Observable outcome of one call into the viewer state store: the stored
index and the `onVisibilityChange` notifications fired during the call. -/
structure CloseOutcome where
  storedIndex : Option Int
  visibilityEvents : List Bool
deriving DecidableEq, Repr

/-- A call to `setCurrentIndex` (= `setIndex`, index.tsx lines 582-598):
stores the resolved/clamped index and fires no visibility notification. -/
def setCurrentIndexCall (len : Nat) (prev : Option Int) (input : SetIndexInput) : CloseOutcome :=
  { storedIndex := setIndexStore len prev input, visibilityEvents := [] }

/-- A call to `close` (= `handleClose`, index.tsx lines 600-603):
`setOpen(null); onVisibilityChangeRef(false)`. -/
def handleCloseCall : CloseOutcome :=
  { storedIndex := none, visibilityEvents := [false] }

/-- Callback invocations observable from the `Root` keydown handler. -/
inductive RootEvent where
  | loadNext
  | setIdx (passed : Int)
deriving DecidableEq, Repr

/-- Outcome of one `Root` keydown: the trace of callback invocations, in
order, and the index finally stored by the store (`setIndex` applied to the
value the handler passed to `setCurrentIndex`). -/
structure KeyOutcome where
  events : List RootEvent
  finalIndex : Option Int
deriving Repr

/-- The `ArrowRight` branch of `Root`'s `onKeydown` (index.tsx lines
109-115), for a non-null `currentIndex`: `nextIndex = currentIndex + 1`;
if `nextIndex >= items.length - 1` call `onLoadNext()`; then
`setCurrentIndex(Math.min(nextIndex, items.length - 1))`. -/
def arrowRight (len : Nat) (currentIndex : Int) : KeyOutcome :=
  let nextIndex := currentIndex + 1
  let loadEvents := if (len : Int) - 1 ≤ nextIndex then [RootEvent.loadNext] else []
  let passed : Int := min nextIndex ((len : Int) - 1)
  { events := loadEvents ++ [RootEvent.setIdx passed],
    finalIndex := setIndexStore len (some currentIndex) (.value (some passed)) }

/-- Per-`Item` drag state: the context's `currentIndex` and the shared
horizontal drag `offset` (`LightboxDragContext`). -/
structure DragState where
  currentIndex : Option Int
  offset : ℚ
deriving DecidableEq, Repr

/-- Callback invocations observable from the `Item` drag handler. -/
inductive ItemEvent where
  | loadNext
  | setIdx (passed : Int)
deriving DecidableEq, Repr

/-- The edge-gating test of the `Item` drag handler (index.tsx lines
303-312): with `edgeThreshold = width * 0.35`, the drag is cancelled when
`ix > edgeThreshold && ix < width - edgeThreshold`.  `none` models a null
`rootRef.current` (no gating possible). -/
def centralStart (rootWidth : Option ℚ) (ix : ℚ) : Bool :=
  match rootWidth with
  | some w => decide (w * (35/100) < ix) && decide (ix < w - w * (35/100))
  | none => false

/-- One invocation of the `useDrag` handler of `Item` (index.tsx lines
292-339).  `down` is whether the pointer is still down, `mx` the horizontal
movement, `xDir` the movement direction, `ix` the initial x position.
Returns the next drag state (currentIndex as stored by `setIndex`, offset)
and the trace of callbacks fired. -/
def itemDragHandler (len : Nat) (rootWidth : Option ℚ) (down : Bool)
    (mx xDir ix : ℚ) (st : DragState) : DragState × List ItemEvent :=
  match st.currentIndex with
  | none => (st, [])
  | some c =>
    if down && centralStart rootWidth ix then
      -- cancel(): gesture aborted, no state change
      (st, [])
    else if down then
      ({ st with offset := mx }, [])
    else if 100 < |mx| then
      let nextIndex : Int := c + (if xDir < 0 then 1 else -1)
      let loadEvents := if (len : Int) - 1 ≤ nextIndex then [ItemEvent.loadNext] else []
      let passed : Int := min (max nextIndex 0) ((len : Int) - 1)
      ({ currentIndex := setIndexStore len (some c) (.value (some passed)), offset := 0 },
       loadEvents ++ [ItemEvent.setIdx passed])
    else
      ({ st with offset := 0 }, [])

/-- The `{scale, x, y}` transform state of `Pinchable` (index.tsx
lines 393-397). -/
structure Transform where
  scale : ℚ
  x : ℚ
  y : ℚ
deriving DecidableEq, Repr

/-- Full `Pinchable` gesture state: the transform plus the transient
vertical `swipeOffsetY`. -/
structure PinchableState where
  transform : Transform
  swipeOffsetY : ℚ
deriving DecidableEq, Repr

/-- Callback invocations observable from `Pinchable`
(`onRequestClose`, `onZoomChange`). -/
inductive PinchableEvent where
  | requestClose
  | zoomChange (zoomed : Bool)
deriving DecidableEq, Repr

/-- User-level operations handled by `Pinchable`'s `useGesture` handlers and
`handleDoubleClick` (index.tsx lines 401-459 and 469-474). -/
inductive PinchableOp where
  | drag (down : Bool) (ox oy my : ℚ) (pinching : Bool)
  | pinch (s : ℚ)
  | doubleClick
deriving Repr

/-- One `Pinchable` gesture step, returning the next state and the trace of
callbacks fired.

`drag` (index.tsx lines 403-434): `if (pinching) return cancel()`; when
`scale > 1` pan to the gesture offset `(ox, oy)`; when unzoomed and `down`
set `swipeOffsetY = Math.max(0, my)`; on release fire `onRequestClose` when
`my > 100` and reset `swipeOffsetY` to 0.

`pinch` (index.tsx lines 435-440): `newScale = Math.max(1, Math.min(s, 4))`;
`setTransform({scale: newScale, x: 0, y: 0})`; `onZoomChange(newScale > 1)`.

`doubleClick` (index.tsx lines 469-474): `setTransform({scale: 1, x: 0,
y: 0}); onZoomChange(false)`. -/
def pinchableStep (st : PinchableState) : PinchableOp → PinchableState × List PinchableEvent
  | .drag down ox oy my pinching =>
    if pinching then (st, [])
    else if 1 < st.transform.scale then
      ({ st with transform := { scale := st.transform.scale, x := ox, y := oy } }, [])
    else if down then
      ({ st with swipeOffsetY := max 0 my }, [])
    else if 100 < my then
      ({ st with swipeOffsetY := 0 }, [PinchableEvent.requestClose])
    else
      ({ st with swipeOffsetY := 0 }, [])
  | .pinch s =>
    let newScale := max 1 (min s 4)
    ({ st with transform := { scale := newScale, x := 0, y := 0 } },
     [PinchableEvent.zoomChange (decide (1 < newScale))])
  | .doubleClick =>
    ({ st with transform := { scale := 1, x := 0, y := 0 } },
     [PinchableEvent.zoomChange false])

/-- Initial `Pinchable` state (`useState({scale: 1, x: 0, y: 0})`,
`useState(0)`, index.tsx lines 393-398). -/
def pinchableInit : PinchableState :=
  { transform := { scale := 1, x := 0, y := 0 }, swipeOffsetY := 0 }

/-- Run a sequence of `Pinchable` operations from the initial state. -/
def runPinchable (ops : List PinchableOp) : PinchableState :=
  ops.foldl (fun st op => (pinchableStep st op).1) pinchableInit

/-- The `opacity` computed in `Pinchable`'s style (index.tsx line 499):
`scale === 1 ? Math.max(0.5, 1 - swipeOffsetY / 300) : 1`. -/
def opacityOf (st : PinchableState) : ℚ :=
  if st.transform.scale = 1 then max (1/2) (1 - st.swipeOffsetY / 300) else 1

/-- The `visibleIndices` computation of `Viewport` (index.tsx lines
237-241): `[currentIndex - 1, currentIndex, currentIndex + 1].filter(i =>
i >= 0 && i < items.length)`. -/
def visibleIndices (currentIndex : Int) (len : Nat) : List Int :=
  [currentIndex - 1, currentIndex, currentIndex + 1].filter
    (fun i => decide (0 ≤ i) && decide (i < (len : Int)))

/-- The indices for which `Viewport` actually mounts an item slot (index.tsx
lines 254-262): for each visible index, `const item = items[index]; if
(!item) return null;` — a slot is produced only when the item at that index
is JS-truthy (`truthy` models the truthiness of the opaque item type). -/
def mountedIndices {T : Type} (truthy : T → Bool) (items : List T)
    (currentIndex : Int) : List Int :=
  (visibleIndices currentIndex items.length).filter
    (fun i =>
      match items.get? i.toNat with
      | some t => truthy t
      | none => false)

/-- Callback invocations observable from the click handler returned by
`getOnClick` (index.tsx lines 650-668). -/
inductive ClickEvent where
  | userOnClick
  | subSetOpen (subscriber : Nat) (idx : Int)
  | visChange (visible : Bool)
deriving DecidableEq, Repr

/-- The registration part of `getOnClick` (index.tsx lines 655-656):
`items.current.push(item); const itemIndex = items.current.length - 1`.
Returns the new list and `itemIndex`. -/
def registerItem {T : Type} (items : List T) (item : T) : List T × Int :=
  (items ++ [item], ((items ++ [item]).length : Int) - 1)

/-- The `for (const setOpen of setOpens.current)` loop (index.tsx lines
663-666): for each subscriber, `setOpen(itemIndex)` then
`onVisibilityChangeRef(true)` — the visibility notification is inside the
loop. -/
def broadcastEvents (itemIndex : Int) : List Nat → List ClickEvent
  | [] => []
  | s :: rest =>
    ClickEvent.subSetOpen s itemIndex :: ClickEvent.visChange true ::
      broadcastEvents itemIndex rest

/-- The click handler returned by `getOnClick` (index.tsx lines 658-667):
`onClick?.(e); if (e.defaultPrevented) return;` then the broadcast loop. -/
def clickHandlerEvents (itemIndex : Int) (subscribers : List Nat)
    (defaultPrevented : Bool) : List ClickEvent :=
  ClickEvent.userOnClick ::
    (if defaultPrevented then [] else broadcastEvents itemIndex subscribers)

end Lightbox

namespace Lightbox

/-- A helper fact used by several claims: storing an already-in-range value
through `setIndex` leaves it unchanged. -/
theorem setIndexStore_of_inrange (len : Nat) (prev : Option Int) (v : Int)
    (h0 : 0 ≤ v) (h1 : v ≤ (len : Int) - 1) :
    setIndexStore len prev (.value (some v)) = some v := by
  unfold setIndexStore resolveNext
  by_cases hv : v = 0
  · simp [hv]
  · simp only [if_neg hv]
    congr 1
    omega

/-- C1 (counterexample): with an empty item list, `setIndex(1)` stores `0`,
which is neither null nor a valid index into the empty list — the claim as
stated over every item list is false. -/
theorem setIndexStore_empty_cex :
    setIndexStore 0 none (.value (some 1)) = some 0 ∧
    ¬ (setIndexStore 0 none (.value (some 1)) = none ∨
        ∃ n, setIndexStore 0 none (.value (some 1)) = some n ∧ 0 ≤ n ∧ n < (0 : Int)) := by
  refine ⟨by decide, ?_⟩
  rintro (h | ⟨n, hn, h0, hlt⟩)
  · exact absurd h (by decide)
  · rw [show setIndexStore 0 none (.value (some 1)) = some 0 from by decide] at hn
    simp only [Option.some.injEq] at hn
    omega

/-- C1 (amended): for every nonempty item list, every previous state and
every integer-or-updater input, the value stored by `setIndex` is either
null or a valid index in `[0, length-1]`. -/
theorem setIndexStore_in_range (len : Nat) (hlen : 1 ≤ len)
    (prev : Option Int) (input : SetIndexInput) :
    setIndexStore len prev input = none ∨
    ∃ n, setIndexStore len prev input = some n ∧ 0 ≤ n ∧ n < (len : Int) := by
  unfold setIndexStore
  cases resolveNext prev input with
  | none => exact Or.inl rfl
  | some n =>
    right
    by_cases hn : n = 0
    · exact ⟨0, by simp [hn], le_refl 0, by exact_mod_cast hlen⟩
    · refine ⟨max 0 (min n ((len : Int) - 1)), by simp [hn], ?_, ?_⟩ <;> omega

/-- C1 (witness): the amended claim at `len = 2`, `prev = none`,
input `5`: the stored index is `1 ∈ [0, 1]`. -/
theorem setIndexStore_in_range_witness :
    1 ≤ 2 ∧
    (setIndexStore 2 none (.value (some 5)) = none ∨
      ∃ n, setIndexStore 2 none (.value (some 5)) = some n ∧ 0 ≤ n ∧ n < (2 : Int)) :=
  ⟨by decide, setIndexStore_in_range 2 (by decide) none (.value (some 5))⟩

/-- C2 (counterexample): `close()` and `setCurrentIndex(null)` are not
equivalent: both store `null`, but only `close()` fires
`onVisibilityChange(false)` — `setIndex` fires no notification at all. -/
theorem close_setIndex_cex :
    (setCurrentIndexCall 3 (some 1) (.value none)).storedIndex = none ∧
    handleCloseCall.storedIndex = none ∧
    (setCurrentIndexCall 3 (some 1) (.value none)).visibilityEvents = [] ∧
    handleCloseCall.visibilityEvents = [false] ∧
    setCurrentIndexCall 3 (some 1) (.value none) ≠ handleCloseCall := by
  refine ⟨rfl, rfl, rfl, rfl, ?_⟩
  intro h
  have := congrArg CloseOutcome.visibilityEvents h
  simp [setCurrentIndexCall, handleCloseCall, setIndexStore, resolveNext] at this

/-- C2 (amended): `close()` and `setCurrentIndex(null)` both set the current
index to null (closing the viewer), but only `close()` fires the
visibility-changed(false) notification; `setCurrentIndex(null)` fires
none. -/
theorem close_setIndex_spec (len : Nat) (prev : Option Int) :
    (setCurrentIndexCall len prev (.value none)).storedIndex = none ∧
    (setCurrentIndexCall len prev (.value none)).visibilityEvents = [] ∧
    handleCloseCall.storedIndex = none ∧
    handleCloseCall.visibilityEvents = [false] :=
  ⟨rfl, rfl, rfl, rfl⟩

/-- C3: for a valid non-null current index `c` into a list of length `len`,
`ArrowRight` stores `min(c+1, len-1)`; when `c+1 >= len-1` the handler
fires `onLoadNext` exactly once, before the `setCurrentIndex` call, and
otherwise it fires no `onLoadNext`; in particular at `c = len-2` the trace
is exactly one `loadNext` followed by the index update. -/
theorem arrowRight_spec (len : Nat) (c : Int) (h0 : 0 ≤ c) (h1 : c < (len : Int)) :
    (arrowRight len c).finalIndex = some (min (c + 1) ((len : Int) - 1)) ∧
    ((len : Int) - 1 ≤ c + 1 →
      (arrowRight len c).events =
        [RootEvent.loadNext, RootEvent.setIdx (min (c + 1) ((len : Int) - 1))]) ∧
    (c + 1 < (len : Int) - 1 →
      (arrowRight len c).events = [RootEvent.setIdx (min (c + 1) ((len : Int) - 1))]) ∧
    (c = (len : Int) - 2 →
      (arrowRight len c).events =
        [RootEvent.loadNext, RootEvent.setIdx (min (c + 1) ((len : Int) - 1))]) := by
  refine ⟨?_, ?_, ?_, ?_⟩
  · show setIndexStore len (some c) (.value (some (min (c + 1) ((len : Int) - 1)))) = _
    exact setIndexStore_of_inrange len (some c) _ (by omega) (by omega)
  · intro h
    simp only [arrowRight, if_pos h, List.cons_append, List.nil_append]
  · intro h
    simp only [arrowRight, if_neg (by omega : ¬ ((len : Int) - 1 ≤ c + 1)), List.nil_append]
  · intro h
    simp only [arrowRight, if_pos (by omega : (len : Int) - 1 ≤ c + 1), List.cons_append,
      List.nil_append]

/-- C3 (witness): `len = 4`, `c = 2 = len - 2`: the trace is
`[loadNext, setIdx 3]` and the stored index is `3 = min(3, 3)`. -/
theorem arrowRight_spec_witness :
    (0 : Int) ≤ 2 ∧ (2 : Int) < (4 : Nat) ∧
    (arrowRight 4 2).finalIndex = some (min (2 + 1) (((4 : Nat) : Int) - 1)) ∧
    ((2 : Int) = ((4 : Nat) : Int) - 2 →
      (arrowRight 4 2).events =
        [RootEvent.loadNext, RootEvent.setIdx (min (2 + 1) (((4 : Nat) : Int) - 1))]) :=
  ⟨by decide, by decide, (arrowRight_spec 4 2 (by decide) (by decide)).1,
    (arrowRight_spec 4 2 (by decide) (by decide)).2.2.2⟩

/-- C4: releasing an item-slot drag (pointer up) with a valid non-null
current index: movement of at most 100px leaves the index unchanged and
resets the offset to 0; movement above 100px moves the index by exactly 1
in the drag's direction (left movement advances, right movement goes back),
clamped into `[0, len-1]`, fires `onLoadNext` first exactly when the
unclamped next index reaches `len - 1`, and still resets the offset to 0. -/
theorem dragRelease_spec (len : Nat) (rootWidth : Option ℚ) (mx xDir ix : ℚ)
    (st : DragState) (c : Int) (hc : st.currentIndex = some c)
    (h0 : 0 ≤ c) (h1 : c < (len : Int)) :
    (|mx| ≤ 100 →
      itemDragHandler len rootWidth false mx xDir ix st = (⟨some c, 0⟩, [])) ∧
    (100 < |mx| →
      itemDragHandler len rootWidth false mx xDir ix st =
        (⟨some (min (max (c + (if xDir < 0 then 1 else -1)) 0) ((len : Int) - 1)), 0⟩,
          (if (len : Int) - 1 ≤ c + (if xDir < 0 then 1 else -1)
            then [ItemEvent.loadNext] else []) ++
            [ItemEvent.setIdx
              (min (max (c + (if xDir < 0 then 1 else -1)) 0) ((len : Int) - 1))])) := by
  obtain ⟨ci, off⟩ := st
  simp only at hc
  subst hc
  constructor
  · intro h
    simp only [itemDragHandler, Bool.false_and, Bool.false_eq_true, if_false,
      if_neg (not_lt.mpr h)]
  · intro h
    have hstore :
        setIndexStore len (some c)
          (.value (some (min (max (c + (if xDir < 0 then 1 else -1)) 0) ((len : Int) - 1)))) =
        some (min (max (c + (if xDir < 0 then 1 else -1)) 0) ((len : Int) - 1)) :=
      setIndexStore_of_inrange len (some c) _ (by omega) (by omega)
    simp only [itemDragHandler, Bool.false_and, Bool.false_eq_true, if_false, if_pos h,
      hstore]

/-- C4 (witness): the spec's own scenario — 3 items, index 1, drag left by
150px (`mx = -150`, `xDir = -1`): the index becomes 2, `onLoadNext` fires
first (since `2 >= 3 - 1`), and the offset resets to 0. -/
theorem dragRelease_spec_witness :
    (⟨some 1, (5 : ℚ)⟩ : DragState).currentIndex = some 1 ∧
    (0 : Int) ≤ 1 ∧ (1 : Int) < (3 : Nat) ∧
    (100 < |(-150 : ℚ)| →
      itemDragHandler 3 (some 400) false (-150) (-1) 20 ⟨some 1, 5⟩ =
        (⟨some (min (max ((1 : Int) + (if (-1 : ℚ) < 0 then 1 else -1)) 0) (((3 : Nat) : Int) - 1)),
            0⟩,
          (if ((3 : Nat) : Int) - 1 ≤ (1 : Int) + (if (-1 : ℚ) < 0 then 1 else -1)
            then [ItemEvent.loadNext] else []) ++
            [ItemEvent.setIdx
              (min (max ((1 : Int) + (if (-1 : ℚ) < 0 then 1 else -1)) 0)
                (((3 : Nat) : Int) - 1))])) :=
  ⟨rfl, by decide, by decide,
    (dragRelease_spec 3 (some 400) (-150) (-1) 20 ⟨some 1, 5⟩ 1 rfl (by decide) (by decide)).2⟩

/-- C5: a pointer-down drag event on an item slot whose initial x position
lies strictly inside the central band `(0.35·w, 0.65·w)` is cancelled
immediately — drag offset and current index unchanged, no callbacks —
while a drag starting in the outer 35% on either edge (`ix ≤ 0.35·w` or
`ix ≥ 0.65·w`) is honored and tracks the movement in the offset. -/
theorem edgeGating_spec (len : Nat) (w mx xDir ix : ℚ) (st : DragState) (c : Int)
    (hc : st.currentIndex = some c) :
    ((w * (35/100) < ix ∧ ix < w * (65/100)) →
      itemDragHandler len (some w) true mx xDir ix st = (st, [])) ∧
    ((ix ≤ w * (35/100) ∨ w * (65/100) ≤ ix) →
      itemDragHandler len (some w) true mx xDir ix st = (⟨some c, mx⟩, [])) := by
  obtain ⟨ci, off⟩ := st
  simp only at hc
  subst hc
  have hkey : w - w * (35/100) = w * (65/100) := by ring
  constructor
  · rintro ⟨h1, h2⟩
    have hcen : centralStart (some w) ix = true := by
      simp only [centralStart, Bool.and_eq_true, decide_eq_true_eq, hkey]
      exact ⟨h1, h2⟩
    simp only [itemDragHandler, hcen, Bool.and_true, if_pos rfl, if_true]
  · intro h
    have hcen : centralStart (some w) ix = false := by
      rw [Bool.eq_false_iff]
      simp only [ne_eq, centralStart, Bool.and_eq_true, decide_eq_true_eq, hkey, not_and, not_lt]
      intro h1
      rcases h with h | h
      · linarith
      · exact h
    simp only [itemDragHandler, hcen, Bool.and_false, Bool.false_eq_true, if_false,
      if_pos rfl, if_true]

/-- C5 (witness): width 200, drag starting at `ix = 100` (central band
`(70, 130)`) is cancelled; a drag starting at `ix = 10` (outer 35%) is
honored and sets the offset to the movement `mx = 42`. -/
theorem edgeGating_spec_witness :
    (⟨some 0, (0 : ℚ)⟩ : DragState).currentIndex = some 0 ∧
    (((200 : ℚ) * (35/100) < 100 ∧ (100 : ℚ) < 200 * (65/100)) →
      itemDragHandler 5 (some 200) true 42 1 100 ⟨some 0, 0⟩ = (⟨some 0, 0⟩, [])) ∧
    (((10 : ℚ) ≤ 200 * (35/100) ∨ (200 : ℚ) * (65/100) ≤ 10) →
      itemDragHandler 5 (some 200) true 42 1 10 ⟨some 0, 0⟩ = (⟨some 0, 42⟩, [])) :=
  ⟨rfl, (edgeGating_spec 5 200 42 1 100 ⟨some 0, 0⟩ 0 rfl).1,
    (edgeGating_spec 5 200 42 1 10 ⟨some 0, 0⟩ 0 rfl).2⟩

/-- Helper: every single `Pinchable` operation preserves the scale bounds
`1 ≤ scale ≤ 4`. -/
theorem pinchableStep_scale_bounds (st : PinchableState) (op : PinchableOp)
    (h1 : 1 ≤ st.transform.scale) (h4 : st.transform.scale ≤ 4) :
    1 ≤ (pinchableStep st op).1.transform.scale ∧
    (pinchableStep st op).1.transform.scale ≤ 4 := by
  cases op with
  | drag down ox oy my pinching =>
    simp only [pinchableStep]
    split_ifs <;> exact ⟨h1, h4⟩
  | pinch s =>
    refine ⟨le_max_left 1 (min s 4), max_le (by norm_num) (min_le_right s 4)⟩
  | doubleClick =>
    exact ⟨le_refl 1, show (1 : ℚ) ≤ 4 by norm_num⟩

/-- Helper: folding any operation list from a state satisfying the scale
bounds stays within the bounds. -/
theorem runPinchable_bounds_aux (ops : List PinchableOp) (st : PinchableState)
    (h1 : 1 ≤ st.transform.scale) (h4 : st.transform.scale ≤ 4) :
    1 ≤ (ops.foldl (fun st op => (pinchableStep st op).1) st).transform.scale ∧
    (ops.foldl (fun st op => (pinchableStep st op).1) st).transform.scale ≤ 4 := by
  induction ops generalizing st with
  | nil => exact ⟨h1, h4⟩
  | cons op rest ih =>
    simp only [List.foldl_cons]
    obtain ⟨g1, g4⟩ := pinchableStep_scale_bounds st op h1 h4
    exact ih _ g1 g4

/-- C6: over every sequence of `Pinchable` operations from the initial
state, the transform's scale stays in `[1, 4]`; and every single pinch
update stores exactly the clamped scale `max(1, min(s, 4))` with the pan
reset to `(0, 0)`. -/
theorem pinchScale_bounded (ops : List PinchableOp) (st : PinchableState) (s : ℚ) :
    (1 ≤ (runPinchable ops).transform.scale ∧ (runPinchable ops).transform.scale ≤ 4) ∧
    (pinchableStep st (.pinch s)).1.transform =
      { scale := max 1 (min s 4), x := 0, y := 0 } :=
  ⟨runPinchable_bounds_aux ops pinchableInit (le_refl 1) (show (1 : ℚ) ≤ 4 by norm_num), rfl⟩

/-- C7: on an unzoomed (`scale = 1`) non-pinching vertical drag of the
`Pinchable` wrapper: while the pointer is down the swipe offset becomes
`max(0, my)` (downward only) with no callback; on release the
close-intercept fires exactly once iff the movement exceeds 100px, and the
swipe offset resets to 0 in every release case; the rendered opacity is
`max(0.5, 1 - swipeOffsetY/300)`. -/
theorem unzoomedSwipe_spec (st : PinchableState) (ox oy my : ℚ)
    (hscale : st.transform.scale = 1) :
    (pinchableStep st (.drag true ox oy my false)).1.swipeOffsetY = max 0 my ∧
    (pinchableStep st (.drag true ox oy my false)).2 = [] ∧
    (100 < my →
      (pinchableStep st (.drag false ox oy my false)).2 = [PinchableEvent.requestClose]) ∧
    (my ≤ 100 → (pinchableStep st (.drag false ox oy my false)).2 = []) ∧
    (pinchableStep st (.drag false ox oy my false)).1.swipeOffsetY = 0 ∧
    opacityOf st = max (1/2) (1 - st.swipeOffsetY / 300) := by
  have hng : ¬ (1 < st.transform.scale) := by rw [hscale]; exact lt_irrefl 1
  refine ⟨?_, ?_, ?_, ?_, ?_, ?_⟩
  · simp [pinchableStep, hng]
  · simp [pinchableStep, hng]
  · intro h
    simp [pinchableStep, hng, h]
  · intro h
    simp [pinchableStep, hng, not_lt.mpr h]
  · simp only [pinchableStep, Bool.false_eq_true, if_false, if_neg hng]
    split_ifs <;> rfl
  · simp [opacityOf, hscale]

/-- C7 (witness): the spec's scenario — unzoomed, vertical drag released at
120px: `onRequestClose` fires exactly once, and the opacity formula holds
at swipe offset 120. -/
theorem unzoomedSwipe_spec_witness :
    (⟨⟨1, 0, 0⟩, (120 : ℚ)⟩ : PinchableState).transform.scale = 1 ∧
    ((100 : ℚ) < 120 →
      (pinchableStep ⟨⟨1, 0, 0⟩, 120⟩ (.drag false 0 0 120 false)).2 =
        [PinchableEvent.requestClose]) ∧
    opacityOf ⟨⟨1, 0, 0⟩, 120⟩ = max (1/2) (1 - (120 : ℚ) / 300) :=
  ⟨rfl, (unzoomedSwipe_spec ⟨⟨1, 0, 0⟩, 120⟩ 0 0 120 rfl).2.2.1,
    (unzoomedSwipe_spec ⟨⟨1, 0, 0⟩, 120⟩ 0 0 120 rfl).2.2.2.2.2⟩

/-- C8: from every `Pinchable` state (any scale, any pan), a double-click
resets the transform to exactly `{scale: 1, x: 0, y: 0}` and fires the
zoom-change callback with `false`. -/
theorem doubleClickReset_spec (st : PinchableState) :
    (pinchableStep st PinchableOp.doubleClick).1.transform =
      { scale := 1, x := 0, y := 0 } ∧
    (pinchableStep st PinchableOp.doubleClick).2 = [PinchableEvent.zoomChange false] :=
  ⟨rfl, rfl⟩

/-- C9 (counterexample): the claim "slots are mounted exactly for the
indices in `{c-1, c, c+1} ∩ [0, length)`" fails when an item is JS-falsy:
with `items = [0]` (a falsy number item) and `c = 0`, index 0 is in the
window and in range, yet `Viewport` mounts no slot for it
(`if (!item) return null`). -/
theorem mountedIndices_cex :
    visibleIndices 0 ([(0 : Int)].length) = [0] ∧
    mountedIndices (fun x : Int => decide (x ≠ 0)) [0] 0 = [] ∧
    ¬ (∀ i : Int, i ∈ mountedIndices (fun x : Int => decide (x ≠ 0)) [0] 0 ↔
        ((i = -1 ∨ i = 0 ∨ i = 1) ∧ 0 ≤ i ∧ i < (([(0 : Int)].length : Nat) : Int))) := by
  refine ⟨by decide, by decide, ?_⟩
  intro h
  have h0 := (h 0).mpr (by decide)
  rw [show mountedIndices (fun x : Int => decide (x ≠ 0)) [0] 0 = [] from by decide] at h0
  exact absurd h0 (List.not_mem_nil 0)

/-- C9 (amended): the `Viewport` mounts item slots exactly for the indices
in `{c-1, c, c+1}` that are valid (`0 ≤ i < length`) and whose item is
JS-truthy; in particular never more than 3 slots, and only for valid
indices. -/
theorem mountedIndices_spec {T : Type} (truthy : T → Bool) (items : List T) (c : Int) :
    (mountedIndices truthy items c).length ≤ 3 ∧
    ∀ i : Int, i ∈ mountedIndices truthy items c ↔
      ((i = c - 1 ∨ i = c ∨ i = c + 1) ∧ 0 ≤ i ∧ i < (items.length : Int) ∧
        ∃ t, items.get? i.toNat = some t ∧ truthy t = true) := by
  constructor
  · have h1 : (mountedIndices truthy items c).length ≤
        (visibleIndices c items.length).length := List.length_filter_le _ _
    have h2 : (visibleIndices c items.length).length ≤
        [c - 1, c, c + 1].length := List.length_filter_le _ _
    simp only [List.length_cons, List.length_nil] at h2
    omega
  · intro i
    simp only [mountedIndices, visibleIndices, List.mem_filter, List.mem_cons,
      List.not_mem_nil, or_false, Bool.and_eq_true, decide_eq_true_eq]
    constructor
    · rintro ⟨⟨hmem, h0, hlt⟩, hp⟩
      refine ⟨hmem, h0, hlt, ?_⟩
      cases hget : items.get? i.toNat with
      | none => rw [hget] at hp; exact absurd hp (by simp)
      | some t => rw [hget] at hp; exact ⟨t, rfl, hp⟩
    · rintro ⟨hmem, h0, hlt, t, hget, ht⟩
      exact ⟨⟨hmem, h0, hlt⟩, by rw [hget]; exact ht⟩

/-- Helper: the broadcast loop fires exactly one visibility-changed(true)
notification per subscriber. -/
theorem broadcastEvents_count (itemIndex : Int) (subs : List Nat) :
    (broadcastEvents itemIndex subs).count (ClickEvent.visChange true) = subs.length := by
  induction subs with
  | nil => rfl
  | cons s rest ih =>
    have hne : ClickEvent.subSetOpen s itemIndex ≠ ClickEvent.visChange true := by
      intro h
      exact ClickEvent.noConfusion h
    simp only [broadcastEvents, List.count_cons, ih, List.length_cons,
      beq_iff_eq, if_neg hne, if_pos rfl, if_true]

/-- C10: after `getOnClick(item)` registers the item (index = previous list
length), invoking the returned handler without `preventDefault` produces,
after the user's own onClick, the broadcast loop's trace — for each
subscriber, that subscriber's index is set to the item's position and then
visibility-changed(true) fires — so with `N` subscribers exactly `N`
visibility-changed(true) notifications fire; a default-prevented click
broadcasts nothing. -/
theorem getOnClick_broadcast_spec {T : Type} (items : List T) (item : T)
    (subscribers : List Nat) :
    (registerItem items item).2 = (items.length : Int) ∧
    clickHandlerEvents (registerItem items item).2 subscribers false =
      ClickEvent.userOnClick :: broadcastEvents (items.length : Int) subscribers ∧
    (clickHandlerEvents (registerItem items item).2 subscribers false).count
        (ClickEvent.visChange true) = subscribers.length ∧
    clickHandlerEvents (registerItem items item).2 subscribers true =
      [ClickEvent.userOnClick] := by
  have hidx : (registerItem items item).2 = (items.length : Int) := by
    simp only [registerItem, List.length_append, List.length_singleton]
    push_cast
    omega
  refine ⟨hidx, ?_, ?_, ?_⟩
  · simp only [clickHandlerEvents, hidx, Bool.false_eq_true, if_false]
  · have hne : ClickEvent.userOnClick ≠ ClickEvent.visChange true := by
      intro h
      exact ClickEvent.noConfusion h
    simp only [clickHandlerEvents, hidx, Bool.false_eq_true, if_false, List.count_cons,
      beq_iff_eq, if_neg hne, broadcastEvents_count]
    omega
  · simp only [clickHandlerEvents, if_true]

end Lightbox
